import Mathlib

/-!
Verification of `RomKit/orgposter/device_info_reader.py` (`DeviceInfoReader`):
the source-cache construction, the field-based lookup/merge engine, and the
device query facade. Python JSON values are embedded as an inductive `Value`;
Python dicts become ordered association lists with first-match lookup,
replace-in-place assignment, and insertion-order iteration (Python 3.7+
semantics). The external collaborators named by the module — the GitHub and
local-file raw fetchers, the `extract_data` projector, and the `JSONReader`
catalog — are oracle function parameters: their results (or raised
exceptions, modelled as `Except`) are arbitrary inputs.
-/

set_option autoImplicit false

namespace RomKit

/-- A Python/JSON value as handled by `device_info_reader.py`. -/
inductive Value where
  | vNull
  | vBool (b : Bool)
  | vInt (n : Int)
  | vStr (s : String)
  | vList (xs : List Value)
  | vDict (kvs : List (Value × Value))

mutual

/-- Boolean structural equality on values (Python `==` restricted to
same-type comparison; the claims never compare across scalar types). -/
def beqV : Value → Value → Bool
  | .vNull, .vNull => true
  | .vBool a, .vBool b => a == b
  | .vInt a, .vInt b => a == b
  | .vStr a, .vStr b => a == b
  | .vList xs, .vList ys => beqL xs ys
  | .vDict xs, .vDict ys => beqP xs ys
  | _, _ => false

/-- Elementwise equality of value lists. -/
def beqL : List Value → List Value → Bool
  | [], [] => true
  | x :: xs, y :: ys => beqV x y && beqL xs ys
  | _, _ => false

/-- Elementwise equality of entry lists. -/
def beqP : List (Value × Value) → List (Value × Value) → Bool
  | [], [] => true
  | (k1, v1) :: xs, (k2, v2) :: ys => beqV k1 k2 && beqV v1 v2 && beqP xs ys
  | _, _ => false

end

theorem beqL_iff_of (xs ys : List Value)
    (h : ∀ x ∈ xs, ∀ b, beqV x b = true ↔ x = b) :
    (beqL xs ys = true ↔ xs = ys) := by
  induction xs generalizing ys with
  | nil => cases ys <;> simp [beqL]
  | cons x xs ih =>
    cases ys with
    | nil => simp [beqL]
    | cons y ys =>
      simp only [beqL, Bool.and_eq_true, List.cons.injEq]
      rw [h x (by simp), ih ys (fun z hz b => h z (by simp [hz]) b)]

theorem beqP_iff_of (xs ys : List (Value × Value))
    (h : ∀ p ∈ xs, ∀ b, (beqV p.1 b = true ↔ p.1 = b) ∧ (beqV p.2 b = true ↔ p.2 = b)) :
    (beqP xs ys = true ↔ xs = ys) := by
  induction xs generalizing ys with
  | nil => cases ys <;> simp [beqP]
  | cons x xs ih =>
    cases ys with
    | nil => obtain ⟨k, v⟩ := x; simp [beqP]
    | cons y ys =>
      obtain ⟨k, v⟩ := x
      obtain ⟨k', v'⟩ := y
      simp only [beqP, Bool.and_eq_true, List.cons.injEq, Prod.mk.injEq]
      rw [(h (k, v) (by simp) k').1, (h (k, v) (by simp) v').2,
        ih ys (fun z hz b => h z (by simp [hz]) b)]

theorem beqV_iff_aux : ∀ (n : Nat) (a b : Value), sizeOf a ≤ n →
    (beqV a b = true ↔ a = b) := by
  intro n
  induction n with
  | zero =>
    intro a b h
    exact absurd h (by cases a <;> simp)
  | succ n ih =>
    intro a b h
    cases a with
    | vNull => cases b <;> simp [beqV]
    | vBool x => cases b <;> simp [beqV]
    | vInt x => cases b <;> simp [beqV]
    | vStr x => cases b <;> simp [beqV]
    | vList xs =>
      cases b
      all_goals simp only [beqV, reduceCtorEq, Value.vList.injEq, iff_false]
      rename_i ys
      refine beqL_iff_of xs ys (fun x hx b => ih x b ?_)
      have hx1 : sizeOf x < sizeOf xs := List.sizeOf_lt_of_mem hx
      have hx2 : sizeOf (Value.vList xs) = 1 + sizeOf xs := by simp
      omega
    | vDict kvs =>
      cases b
      all_goals simp only [beqV, reduceCtorEq, Value.vDict.injEq, iff_false]
      rename_i ys
      refine beqP_iff_of kvs ys (fun p hp => ?_)
      have hp1 : sizeOf p < sizeOf kvs := List.sizeOf_lt_of_mem hp
      obtain ⟨k, v⟩ := p
      have hp2 : sizeOf (Value.vDict kvs) = 1 + sizeOf kvs := by simp
      have hk : sizeOf k ≤ n := by simp at hp1 ⊢; omega
      have hv : sizeOf v ≤ n := by simp at hp1 ⊢; omega
      exact fun b => ⟨ih k b hk, ih v b hv⟩

theorem beqV_iff (a b : Value) : beqV a b = true ↔ a = b :=
  beqV_iff_aux (sizeOf a) a b (Nat.le_refl _)

instance : DecidableEq Value :=
  fun a b => decidable_of_iff (beqV a b = true) (beqV_iff a b)

/-- Python truthiness (`bool(v)`), as used in `if not source_name:`,
`if lookup_value:`, `if extracted_data:` etc. -/
def truthy : Value → Bool
  | .vNull => false
  | .vBool b => b
  | .vInt n => n != 0
  | .vStr s => s ≠ ""
  | .vList xs => !xs.isEmpty
  | .vDict kvs => !kvs.isEmpty

/-- Python `str()` as used by the f-string `f"{source_name}_{k}"`.
Rendering is modelled precisely for the scalar values that occur as source
names and record keys; container rendering is abstracted. -/
def pyStr : Value → String
  | .vNull => "None"
  | .vBool true => "True"
  | .vBool false => "False"
  | .vInt n => toString n
  | .vStr s => s
  | .vList _ => "<list>"
  | .vDict _ => "<dict>"

/-- A Python dict with values of type `α`, as an insertion-ordered
association list. -/
abbrev AList (α : Type) := List (Value × α)

/-- A record / configuration dict (`Dict[str, Any]` in the source). -/
abbrev PyDict := AList Value

/-- Python `d.get(k)`: first entry with an equal key, `None`-free form. -/
def alGet {α : Type} : AList α → Value → Option α
  | [], _ => none
  | (k0, v0) :: rest, k => if k0 = k then some v0 else alGet rest k

/-- Python `d.get(k, default)` / `d.get(k)` with `None` for a missing key. -/
def alGetD {α : Type} (d : AList α) (k : Value) (default : α) : α :=
  (alGet d k).getD default

/-- Python `d[k] = v`: replace the value at an existing key in place (the entry
keeps its position, as Python dicts do), else append a new entry. -/
def alSet {α : Type} : AList α → Value → α → AList α
  | [], k, v => [(k, v)]
  | (k0, v0) :: rest, k, v =>
    if k0 = k then (k0, v) :: rest else (k0, v0) :: alSet rest k v

/-- The keys of a dict, in iteration order. -/
def alKeys {α : Type} : AList α → List Value
  | [] => []
  | (k, _) :: rest => k :: alKeys rest

/-- Python `cur.update(other)`: assign every entry of `other`, in order. -/
def dictUpdate (cur other : PyDict) : PyDict :=
  other.foldl (fun c kv => alSet c kv.1 kv.2) cur

/-- Python `d.copy()`: shallow copy; on the value level a copy is the same
association list. -/
def dictCopy (d : PyDict) : PyDict := d

/-- A Python exception, as relevant here: `d[k]` raising `KeyError`, or an
exception raised by a collaborator (network error, malformed JSON, ...). -/
inductive PyErr where
  | keyError (k : Value)
  | exc (msg : String)
  deriving DecidableEq

/-- Python `d[k]`: subscription, raising `KeyError` on a missing key. -/
def pyGetItem (d : PyDict) (k : Value) : Except PyErr Value :=
  match alGet d k with
  | some v => .ok v
  | none => .error (.keyError k)

/-- One cached source: `{"data": extracted_data, "config": source}`
(`sources_cache[source_name]`). -/
structure SourceEntry where
  data : Value
  config : PyDict
  deriving DecidableEq

/-- The attribute `self.sources_cache`: mapping source name → cached entry, in insertion
order. -/
abbrev Cache := AList SourceEntry

/-- The diagnostic messages printed by `_load_all_sources`; the carried data
is what the f-strings interpolate (exact text formatting is plumbing). -/
inductive LogMsg where
  /-- `"Warning: Source missing 'name' field, skipping"` -/
  | warnMissingName
  /-- `"Warning: Unknown source type '{source['type']}' for {source_name}"` -/
  | warnUnknownType (t : Value) (source_name : Value)
  /-- `"Loaded {len(extracted_data)} items from source '{source_name}'"` -/
  | loadedItems (source_name : Value) (count : Nat)
  /-- `"Error loading source '{source_name}': {e}"` -/
  | errorLoading (source_name : Value) (e : PyErr)
  deriving DecidableEq

/-- The fetch/projection collaborators, passed as oracles: `_load_github_source`,
`_load_local_source` (each may raise), and `extract_data` from `..utils`. -/
structure Collab where
  load_github_source : PyDict → Except PyErr Value
  load_local_source : PyDict → Except PyErr Value
  extract_data : Value → Value → Except PyErr Value

/-- Model of `[extract_data(item, structure[0]) for item in data]`, stopping at the
first raised exception. -/
def extractEach (ext : Value → Value → Except PyErr Value) (s0 : Value) :
    List Value → Except PyErr (List Value)
  | [] => .ok []
  | item :: rest =>
    match ext item s0 with
    | .error e => .error e
    | .ok y =>
      match extractEach ext s0 rest with
      | .error e => .error e
      | .ok ys => .ok (y :: ys)

/-- Lines 87–97: homogeneous list projection when both `data` and
`structure` are lists and `structure` is non-empty, else whole-payload
projection. -/
def extractAll (ext : Value → Value → Except PyErr Value) (data structv : Value) :
    Except PyErr Value :=
  match data, structv with
  | .vList items, .vList (s0 :: _) =>
    match extractEach ext s0 items with
    | .error e => .error e
    | .ok xs => .ok (.vList xs)
  | d, s => ext d s

/-- Lines 99–100: `if not isinstance(extracted_data, list): extracted_data =
[extracted_data] if extracted_data else []`. -/
def normalizeExtracted (extracted_data : Value) : Value :=
  match extracted_data with
  | .vList _ => extracted_data
  | v => if truthy v then .vList [v] else .vList []

/-- Python `len(v)` for the values this module takes lengths of. -/
def pyLen : Value → Nat
  | .vList xs => xs.length
  | .vDict kvs => kvs.length
  | _ => 0

/-- Lines 85–106 continued: given the fetched raw `data`, read
`source["structure"]`, project, normalize, store under `source_name`, and
log the item count. -/
def processFetched (c : Collab) (cache : Cache) (source : PyDict)
    (source_name : Value) (data : Value) : Except PyErr (Cache × List LogMsg) :=
  match pyGetItem source (.vStr "structure") with
  | .error e => .error e
  | .ok structv =>
    match extractAll c.extract_data data structv with
    | .error e => .error e
    | .ok extracted =>
      let extracted_data := normalizeExtracted extracted
      .ok (alSet cache source_name { data := extracted_data, config := source },
        [.loadedItems source_name (pyLen extracted_data)])

/-- The body of the `try:` block (lines 74–106): dispatch on
`source["type"]` — `"github"` → `_load_github_source`, `"local"` →
`_load_local_source`, anything else → warning and skip (`continue`). The
`Except` error channel is the Python exception flow. -/
def tryLoadSource (c : Collab) (cache : Cache) (source : PyDict)
    (source_name : Value) : Except PyErr (Cache × List LogMsg) :=
  match pyGetItem source (.vStr "type") with
  | .error e => .error e
  | .ok t =>
    if t = .vStr "github" then
      match c.load_github_source source with
      | .error e => .error e
      | .ok data => processFetched c cache source source_name data
    else if t = .vStr "local" then
      match c.load_local_source source with
      | .error e => .error e
      | .ok data => processFetched c cache source source_name data
    else
      .ok (cache, [.warnUnknownType t source_name])

/-- One iteration of the `for source in self.device_info_sources:` loop
(lines 68–109): skip on missing/empty `name`, otherwise run the `try:` body;
a raised exception is caught by `except Exception as e:` and logged. -/
def loadOneSource (c : Collab) (st : Cache × List LogMsg) (source : PyDict) :
    Cache × List LogMsg :=
  let source_name := alGetD source (.vStr "name") .vNull
  if truthy source_name = false then
    (st.1, st.2 ++ [.warnMissingName])
  else
    match tryLoadSource c st.1 source source_name with
    | .ok res => (res.1, st.2 ++ res.2)
    | .error e => (st.1, st.2 ++ [.errorLoading source_name e])

/-- Model of `_load_all_sources` (lines 63–109), with the cache and the emitted log
threaded explicitly. -/
def loadAllSources (c : Collab) (sources : List PyDict)
    (st : Cache × List LogMsg) : Cache × List LogMsg :=
  sources.foldl (loadOneSource c) st

/-- The per-item condition of the scan (line 165): `isinstance(item, dict)
and item.get(lookup_field) == lookup_value`. Equality is structural value
equality (exact same-type comparison). -/
def lookupMatches (lookup_field lookup_value : Value) (item : Value) : Bool :=
  match item with
  | .vDict kvs => alGetD kvs lookup_field .vNull = lookup_value
  | _ => false

/-- Model of `_lookup_in_source` (lines 140–171): linear scan of the cached data for
the first dict item whose `lookup_field` equals `lookup_value`; `None`
when the source is not cached or nothing matches. -/
def lookupInSource (cache : Cache) (source_name : Value)
    (lookup_field : Value) (lookup_value : Value) : Option Value :=
  match alGet cache source_name with
  | none => none
  | some cached_source =>
    match cached_source.data with
    | .vList items => items.find? (lookupMatches lookup_field lookup_value)
    | .vDict kvs =>
      if alGetD kvs lookup_field .vNull = lookup_value then
        some (.vDict kvs)
      else none
    | _ => none

/-- Line 200: `{f"{source_name}_{k}": v for k, v in match.items()}`. -/
def prefixMatch (source_name : Value) (m : Value) : PyDict :=
  match m with
  | .vDict kvs => kvs.map (fun kv => (.vStr (pyStr source_name ++ "_" ++ pyStr kv.1), kv.2))
  | _ => []

/-- Lines 197–201: if the resolved `lookup_value` is truthy, look it up and,
when a (truthy) match is found, overlay the prefixed match onto
`current_data`. -/
def mergeApplyLookup (cache : Cache) (current_data : PyDict)
    (source_name lookup_field lookup_value : Value) : PyDict :=
  if truthy lookup_value = true then
    match lookupInSource cache source_name lookup_field lookup_value with
    | some m =>
      if truthy m = true then dictUpdate current_data (prefixMatch source_name m)
      else current_data
    | none => current_data
  else current_data

/-- One iteration of the `for source_name, cached_source in
self.sources_cache.items():` loop (lines 185–201). -/
def mergeSourcesStep (cache : Cache) (ota_data current_data : PyDict)
    (source_name : Value) (cached_source : SourceEntry) : PyDict :=
  let config := cached_source.config
  let lookup_field := alGetD config (.vStr "lookup_field") .vNull
  if truthy lookup_field = false then current_data
  else
    let lookup_value :=
      if truthy (alGetD config (.vStr "match_from") .vNull) = true then
        alGetD current_data (alGetD config (.vStr "match_from") .vNull) .vNull
      else
        alGetD ota_data lookup_field .vNull
    mergeApplyLookup cache current_data source_name lookup_field lookup_value

/-- The merge loop over the cache entries in iteration order. -/
def mergeLoop (cache : Cache) (ota_data : PyDict) :
    List (Value × SourceEntry) → PyDict → PyDict
  | [], current_data => current_data
  | (source_name, cached_source) :: rest, current_data =>
    mergeLoop cache ota_data rest
      (mergeSourcesStep cache ota_data current_data source_name cached_source)

/-- Model of `_merge_sources_into_device` (lines 173–203): start from
`ota_data.copy()` and fold the per-source merge step over the cache. -/
def mergeSourcesIntoDevice (cache : Cache) (ota_data : PyDict) : PyDict :=
  mergeLoop cache ota_data cache (dictCopy ota_data)

/-- Model of `get_device_info` (lines 205–223); `ota_data` is what the external
`JSONReader` collaborator returned (`Optional[Dict]`). -/
def getDeviceInfo (device_info_sources : List PyDict) (cache : Cache)
    (ota_data : Option PyDict) : Option PyDict :=
  match ota_data with
  | none => none
  | some d =>
    if truthy (.vDict d) = false then none
    else if device_info_sources.isEmpty then some d
    else some (mergeSourcesIntoDevice cache d)

/-- Model of `get_all_devices` (lines 225–243); `ota_devices` is what
`JSONReader.get_all_devices()` returned. -/
def getAllDevices (device_info_sources : List PyDict) (cache : Cache)
    (ota_devices : List PyDict) : List PyDict :=
  if device_info_sources.isEmpty then ota_devices
  else ota_devices.map (mergeSourcesIntoDevice cache)

/-- The attributes of a `DeviceInfoReader` instance relevant to the merge
engine (the collaborator handles are the `Collab` oracles). -/
structure DeviceInfoReaderState where
  device_info_sources : List PyDict
  sources_cache : Cache
  deriving DecidableEq

/-- Model of `__init__` (lines 38–61): `self.device_info_sources =
device_info_sources or []`, an empty cache, then `_load_all_sources()` iff
the source list is non-empty. -/
def initReader (c : Collab) (device_info_sources : Option (List PyDict)) :
    DeviceInfoReaderState × List LogMsg :=
  let sources := device_info_sources.getD []
  if sources.isEmpty = false then
    let res := loadAllSources c sources ([], [])
    ({ device_info_sources := sources, sources_cache := res.1 }, res.2)
  else
    ({ device_info_sources := sources, sources_cache := [] }, [])

/-- Model of `get_device_info` in explicit state-passing form. The method body reads
`self.device_info_sources` and `self.sources_cache` and assigns no
attribute; `_merge_sources_into_device` writes only its local
`current_data` (a `.copy()` of the primary record) and only reads the
cached entries, so the post-state equals the pre-state. -/
def getDeviceInfoST (r : DeviceInfoReaderState) (ota_data : Option PyDict) :
    Option PyDict × DeviceInfoReaderState :=
  (getDeviceInfo r.device_info_sources r.sources_cache ota_data, r)

/-- Model of `get_all_devices` in explicit state-passing form (same reasoning as
`getDeviceInfoST`). -/
def getAllDevicesST (r : DeviceInfoReaderState) (ota_devices : List PyDict) :
    List PyDict × DeviceInfoReaderState :=
  (getAllDevices r.device_info_sources r.sources_cache ota_devices, r)

/-- Modelled from the spec's words (§4.3 step b): "if `match_from` is set,
read that field from the current accumulating record ...; otherwise read
`lookup_field` from the original primary record" — "set" read as Python
truthiness, the reading the spec's §9 attributes to the module. Used to
compare the spec's resolution rule with the code's. -/
def specResolveMatchValue (primary current config : PyDict) : Value :=
  let mf := alGetD config (.vStr "match_from") .vNull
  if truthy mf = true then alGetD current mf .vNull
  else alGetD primary (alGetD config (.vStr "lookup_field") .vNull) .vNull

/-! ### Association-list lemmas -/

theorem alGet_alSet {α : Type} (c : AList α) (k k' : Value) (v : α) :
    alGet (alSet c k v) k' = if k' = k then some v else alGet c k' := by
  induction c with
  | nil =>
    rcases eq_or_ne k' k with h | h
    · subst h; simp [alSet, alGet]
    · simp [alSet, alGet, h, Ne.symm h]
  | cons kv rest ih =>
    obtain ⟨k0, v0⟩ := kv
    rcases eq_or_ne k0 k with h0 | h0
    · subst h0
      rcases eq_or_ne k' k0 with h | h
      · subst h; simp [alSet, alGet]
      · simp [alSet, alGet, h, Ne.symm h]
    · rcases eq_or_ne k0 k' with h | h
      · subst h
        simp [alSet, alGet, h0]
      · simp [alSet, alGet, h0, h, ih]

theorem mem_alKeys_alSet {α : Type} (c : AList α) (k k' : Value) (v : α) :
    k' ∈ alKeys (alSet c k v) ↔ k' ∈ alKeys c ∨ k' = k := by
  induction c with
  | nil => simp [alSet, alKeys]
  | cons kv rest ih =>
    obtain ⟨k0, v0⟩ := kv
    rcases eq_or_ne k0 k with h0 | h0
    · subst h0; simp [alSet, alKeys]; tauto
    · simp [alSet, alKeys, h0, ih]; tauto

theorem alGet_eq_none_iff {α : Type} (c : AList α) (k : Value) :
    alGet c k = none ↔ k ∉ alKeys c := by
  induction c with
  | nil => simp [alGet, alKeys]
  | cons kv rest ih =>
    obtain ⟨k0, v0⟩ := kv
    rcases eq_or_ne k0 k with h | h
    · subst h; simp [alGet, alKeys]
    · simp [alGet, alKeys, h, ih, Ne.symm h]

theorem dictUpdate_cons (cur : PyDict) (kv : Value × Value) (rest : PyDict) :
    dictUpdate cur (kv :: rest) = dictUpdate (alSet cur kv.1 kv.2) rest := by
  simp [dictUpdate]

theorem alGet_dictUpdate_not_mem (cur other : PyDict) (k : Value)
    (h : k ∉ alKeys other) : alGet (dictUpdate cur other) k = alGet cur k := by
  induction other generalizing cur with
  | nil => simp [dictUpdate]
  | cons kv rest ih =>
    obtain ⟨k0, v0⟩ := kv
    simp only [alKeys, List.mem_cons, not_or] at h
    rw [dictUpdate_cons, ih _ h.2, alGet_alSet]
    simp [h.1]

theorem mem_alKeys_dictUpdate (cur other : PyDict) (k : Value)
    (h : k ∈ alKeys (dictUpdate cur other)) :
    k ∈ alKeys cur ∨ k ∈ alKeys other := by
  induction other generalizing cur with
  | nil => simp [dictUpdate] at h; exact Or.inl h
  | cons kv rest ih =>
    obtain ⟨k0, v0⟩ := kv
    rw [dictUpdate_cons] at h
    rcases ih _ h with h' | h'
    · rw [mem_alKeys_alSet] at h'
      rcases h' with h' | h'
      · exact Or.inl h'
      · exact Or.inr (by simp [alKeys, h'])
    · exact Or.inr (by simp [alKeys, h'])

theorem alGet_dictUpdate_mem (cur other : PyDict) (k : Value) (v : Value)
    (hnd : (alKeys other).Nodup) (hmem : (k, v) ∈ other) :
    alGet (dictUpdate cur other) k = some v := by
  induction other generalizing cur with
  | nil => cases hmem
  | cons kv rest ih =>
    obtain ⟨k0, v0⟩ := kv
    rw [dictUpdate_cons]
    simp only [alKeys, List.nodup_cons] at hnd
    rcases List.mem_cons.mp hmem with heq | hmem'
    · injection heq with hk hv
      subst hk; subst hv
      rw [alGet_dictUpdate_not_mem _ _ _ hnd.1, alGet_alSet]
      simp
    · exact ih _ hnd.2 hmem'

theorem find?_first {α : Type} (p : α → Bool) (l : List α) (m : α)
    (h : l.find? p = some m) :
    ∃ l1 l2, l = l1 ++ m :: l2 ∧ p m = true ∧ ∀ x ∈ l1, p x = false := by
  induction l with
  | nil => simp at h
  | cons a rest ih =>
    by_cases hp : p a = true
    · rw [List.find?_cons_of_pos _ hp] at h
      injection h with h
      exact ⟨[], rest, by simp [h], h ▸ hp, by simp⟩
    · rw [List.find?_cons_of_neg _ hp] at h
      obtain ⟨l1, l2, hl, hm, hall⟩ := ih h
      refine ⟨a :: l1, l2, by simp [hl], hm, ?_⟩
      intro x hx
      rcases List.mem_cons.mp hx with hx | hx
      · subst hx
        simp only [Bool.not_eq_true] at hp
        exact hp
      · exact hall x hx

/-! ### Loading-pipeline lemmas -/

theorem normalizeExtracted_isList (v : Value) :
    ∃ xs, normalizeExtracted v = Value.vList xs := by
  cases v <;> simp [normalizeExtracted] <;> split <;> simp

theorem processFetched_ok_shape (c : Collab) (cache : Cache) (source : PyDict)
    (source_name data : Value) (res : Cache × List LogMsg)
    (h : processFetched c cache source source_name data = .ok res) :
    ∃ xs, res.1 = alSet cache source_name
      { data := Value.vList xs, config := source } := by
  unfold processFetched at h
  split at h
  · exact absurd h (by simp)
  · split at h
    · exact absurd h (by simp)
    · rename_i extracted _
      obtain ⟨xs, hxs⟩ := normalizeExtracted_isList extracted
      injection h with h
      exact ⟨xs, by rw [← h, hxs]⟩

theorem tryLoadSource_ok_shape (c : Collab) (cache : Cache) (source : PyDict)
    (source_name : Value) (res : Cache × List LogMsg)
    (h : tryLoadSource c cache source source_name = .ok res) :
    res.1 = cache ∨ ∃ xs, res.1 = alSet cache source_name
      { data := Value.vList xs, config := source } := by
  unfold tryLoadSource at h
  split at h
  · exact absurd h (by simp)
  · split at h
    · split at h
      · exact absurd h (by simp)
      · exact Or.inr (processFetched_ok_shape _ _ _ _ _ _ h)
    · split at h
      · split at h
        · exact absurd h (by simp)
        · exact Or.inr (processFetched_ok_shape _ _ _ _ _ _ h)
      · injection h with h
        exact Or.inl (by rw [← h])

/-- The C7 invariant: every cached entry's `data` is a list. -/
def CacheDataIsList (cache : Cache) : Prop :=
  ∀ n e, alGet cache n = some e → ∃ xs, e.data = Value.vList xs

theorem cacheDataIsList_alSet (cache : Cache) (n : Value) (e : SourceEntry)
    (hc : CacheDataIsList cache) (he : ∃ xs, e.data = Value.vList xs) :
    CacheDataIsList (alSet cache n e) := by
  intro n' e' h'
  rw [alGet_alSet] at h'
  split at h'
  · injection h' with h'; exact h' ▸ he
  · exact hc n' e' h'

theorem cacheDataIsList_loadOne (c : Collab) (st : Cache × List LogMsg)
    (source : PyDict) (h : CacheDataIsList st.1) :
    CacheDataIsList (loadOneSource c st source).1 := by
  simp only [loadOneSource]
  split
  · exact h
  · split
    · rename_i res hres
      rcases tryLoadSource_ok_shape _ _ _ _ _ hres with hsh | ⟨xs, hsh⟩
      · simpa [hsh] using h
      · simp only [hsh]
        exact cacheDataIsList_alSet _ _ _ h ⟨xs, rfl⟩
    · exact h

theorem cacheDataIsList_loadAll (c : Collab) (sources : List PyDict)
    (st : Cache × List LogMsg) (h : CacheDataIsList st.1) :
    CacheDataIsList (loadAllSources c sources st).1 := by
  induction sources generalizing st with
  | nil => exact h
  | cons s rest ih =>
    simp only [loadAllSources, List.foldl_cons]
    exact ih _ (cacheDataIsList_loadOne c st s h)

/-! ### Concrete oracles and descriptors, used to evaluate the model on
closed inputs -/

/-- Collaborator instantiation whose fetchers succeed with fixed JSON
payloads and whose projector is the identity. -/
def sampleOracles : Collab where
  load_github_source := fun _ => .ok (.vDict [(.vStr "model", .vStr "X1")])
  load_local_source := fun _ =>
    .ok (.vList [.vDict [(.vStr "model", .vStr "X1"), (.vStr "ram", .vStr "8GB")]])
  extract_data := fun d _ => .ok d

/-- Collaborator instantiation whose fetchers and projector all raise. -/
def failingOracles : Collab where
  load_github_source := fun _ => .error (.exc "boom")
  load_local_source := fun _ => .error (.exc "boom")
  extract_data := fun _ _ => .error (.exc "boom")

/-- A well-formed local source descriptor. -/
def specsSource : PyDict :=
  [(.vStr "name", .vStr "specs"), (.vStr "type", .vStr "local"),
   (.vStr "file", .vStr "specs.json"),
   (.vStr "structure", .vDict [(.vStr "model", .vStr "m")]),
   (.vStr "lookup_field", .vStr "model")]

/-- A source descriptor whose `type` is the spec's tag `"remote"`. -/
def remoteTypedSource : PyDict :=
  [(.vStr "name", .vStr "r"), (.vStr "type", .vStr "remote"),
   (.vStr "repo", .vStr "o/r"), (.vStr "file", .vStr "x.json"),
   (.vStr "structure", .vNull)]

/-- A source descriptor whose `type` is the code's tag `"github"`. -/
def githubTypedSource : PyDict :=
  [(.vStr "name", .vStr "g"), (.vStr "type", .vStr "github"),
   (.vStr "repo", .vStr "o/r"), (.vStr "file", .vStr "x.json"),
   (.vStr "structure", .vNull)]

/-- A cached source with two records sharing the lookup value `"1"`. -/
def dupItems : List Value :=
  [.vDict [(.vStr "m", .vStr "1"), (.vStr "a", .vStr "x")],
   .vDict [(.vStr "m", .vStr "1"), (.vStr "a", .vStr "y")]]

/-- The cache entry holding `dupItems`. -/
def dupEntry : SourceEntry :=
  { data := .vList dupItems, config := [(.vStr "lookup_field", .vStr "m")] }

/-- A one-source cache holding `dupEntry` under name `"s"`. -/
def dupCache : Cache := [(.vStr "s", dupEntry)]

/-- The cache produced by loading `specsSource` through `sampleOracles`. -/
def specsCache : Cache :=
  [(.vStr "specs",
    { data := .vList [.vDict [(.vStr "model", .vStr "X1"), (.vStr "ram", .vStr "8GB")]],
      config := specsSource })]

/-! ### Merge-engine lemmas -/

theorem mergeSourcesStep_resolves (cache : Cache) (ota_data current_data : PyDict)
    (source_name : Value) (cached_source : SourceEntry)
    (hlf : truthy (alGetD cached_source.config (.vStr "lookup_field") .vNull) = true) :
    mergeSourcesStep cache ota_data current_data source_name cached_source
      = mergeApplyLookup cache current_data source_name
          (alGetD cached_source.config (.vStr "lookup_field") .vNull)
          (specResolveMatchValue ota_data current_data cached_source.config) := by
  simp only [mergeSourcesStep, specResolveMatchValue, hlf]
  simp

/-- The three ways the merge step for one source leaves the accumulating
record untouched when it starts from the primary record itself: no
`lookup_field`, a falsy resolved match value, or a lookup miss. -/
def mergeStepSkips (cache : Cache) (ota_data : PyDict)
    (p : Value × SourceEntry) : Prop :=
  truthy (alGetD p.2.config (.vStr "lookup_field") .vNull) = false ∨
  truthy (specResolveMatchValue ota_data ota_data p.2.config) = false ∨
  lookupInSource cache p.1 (alGetD p.2.config (.vStr "lookup_field") .vNull)
    (specResolveMatchValue ota_data ota_data p.2.config) = none

instance (cache : Cache) (ota_data : PyDict) (p : Value × SourceEntry) :
    Decidable (mergeStepSkips cache ota_data p) := by
  unfold mergeStepSkips
  infer_instance

theorem mergeStep_of_skips (cache : Cache) (ota_data : PyDict)
    (p : Value × SourceEntry) (h : mergeStepSkips cache ota_data p) :
    mergeSourcesStep cache ota_data ota_data p.1 p.2 = ota_data := by
  by_cases hlf : truthy (alGetD p.2.config (.vStr "lookup_field") .vNull) = false
  · simp [mergeSourcesStep, hlf]
  · rw [Bool.not_eq_false] at hlf
    rw [mergeSourcesStep_resolves cache ota_data ota_data p.1 p.2 hlf]
    rcases h with h | h | h
    · rw [h] at hlf; cases hlf
    · simp [mergeApplyLookup, h]
    · simp [mergeApplyLookup, h]

theorem mergeLoop_skips (cache : Cache) (ota_data : PyDict)
    (entries : List (Value × SourceEntry))
    (h : ∀ p ∈ entries, mergeStepSkips cache ota_data p) :
    mergeLoop cache ota_data entries ota_data = ota_data := by
  induction entries with
  | nil => rfl
  | cons p rest ih =>
    obtain ⟨n, e⟩ := p
    simp only [mergeLoop]
    have hstep := mergeStep_of_skips cache ota_data (n, e) (h _ (by simp))
    simp only at hstep
    rw [hstep]
    exact ih (fun q hq => h q (by simp [hq]))

theorem mem_alKeys_prefixMatch (source_name : Value)
    (kvs : List (Value × Value)) (key : Value) :
    key ∈ alKeys (prefixMatch source_name (.vDict kvs)) ↔
    ∃ k0 v0, (k0, v0) ∈ kvs ∧
      key = .vStr (pyStr source_name ++ "_" ++ pyStr k0) := by
  induction kvs with
  | nil => simp [prefixMatch, alKeys]
  | cons kv rest ih =>
    obtain ⟨k0, v0⟩ := kv
    simp only [prefixMatch, List.map_cons, alKeys, List.mem_cons] at ih ⊢
    rw [ih]
    constructor
    · rintro (h | h)
      · exact ⟨k0, v0, Or.inl rfl, h⟩
      · obtain ⟨k1, v1, hm, hk⟩ := h
        exact ⟨k1, v1, Or.inr hm, hk⟩
    · rintro ⟨k1, v1, (h | h), hk⟩
      · injection h with h1 h2
        subst h1
        exact Or.inl hk
      · exact Or.inr ⟨k1, v1, h, hk⟩

/-! ### Claims -/

/-- C8: for every source descriptor whose `name` is absent or falsy
(empty), the loader logs a warning and skips it: the cache gains no entry,
the loop continues with the next descriptor, and no exception propagates
(the step is total and leaves the cache untouched), so the source is never
merged. -/
theorem c8_missing_name_skipped (c : Collab) (source : PyDict)
    (rest : List PyDict) (cache : Cache) (logs : List LogMsg)
    (h : truthy (alGetD source (.vStr "name") .vNull) = false) :
    loadOneSource c (cache, logs) source
      = (cache, logs ++ [.warnMissingName]) ∧
    loadAllSources c (source :: rest) (cache, logs)
      = loadAllSources c rest (cache, logs ++ [.warnMissingName]) := by
  have h1 : loadOneSource c (cache, logs) source
      = (cache, logs ++ [.warnMissingName]) := by
    simp [loadOneSource, h]
  exact ⟨h1, by simp [loadAllSources, h1]⟩

/-- C8 witness: a descriptor with no `name` key is skipped with a warning
and contributes no cache entry. -/
theorem c8_missing_name_skipped_witness :
    loadAllSources sampleOracles [[(.vStr "type", .vStr "local")]] ([], [])
      = loadAllSources sampleOracles [] ([], [.warnMissingName]) :=
  (c8_missing_name_skipped sampleOracles [(.vStr "type", .vStr "local")]
    [] [] [] (by decide)).2

/-- C2: any exception raised inside the per-source `try:` body (type
subscription, fetch, structure subscription, or projection) is caught in
the loop: the failing source contributes no cache entry, the error is
logged with the source name, and processing continues with the next
descriptor — so construction, whose loading loop is this total function,
never fails because one source is unreachable or malformed. -/
theorem c2_failure_isolated (c : Collab) (source : PyDict)
    (rest : List PyDict) (cache : Cache) (logs : List LogMsg)
    (source_name : Value) (e : PyErr)
    (hname : source_name = alGetD source (.vStr "name") .vNull)
    (ht : truthy source_name = true)
    (herr : tryLoadSource c cache source source_name = .error e) :
    loadOneSource c (cache, logs) source
      = (cache, logs ++ [.errorLoading source_name e]) ∧
    loadAllSources c (source :: rest) (cache, logs)
      = loadAllSources c rest (cache, logs ++ [.errorLoading source_name e]) := by
  have h1 : loadOneSource c (cache, logs) source
      = (cache, logs ++ [.errorLoading source_name e]) := by
    simp [loadOneSource, ← hname, ht, herr]
  exact ⟨h1, by simp [loadAllSources, h1]⟩

/-- C2 witness: a source whose fetcher raises is skipped — its error is
logged and the cache stays empty. -/
theorem c2_failure_isolated_witness :
    loadAllSources failingOracles [specsSource] ([], [])
      = loadAllSources failingOracles [] ([], [.errorLoading (.vStr "specs") (.exc "boom")]) :=
  (c2_failure_isolated failingOracles specsSource [] [] []
    (.vStr "specs") (.exc "boom") (by decide) (by decide) rfl).2

/-- C7: every entry the loader caches has a sequence as its `data`; the
normalization keeps a sequence as-is (length N), wraps a truthy non-list
value into a one-element sequence, and turns a falsy non-list value into
the empty sequence. -/
theorem c7_cached_data_is_sequence (c : Collab) (sources : List PyDict)
    (name : Value) (entry : SourceEntry)
    (h : alGet (loadAllSources c sources ([], [])).1 name = some entry) :
    (∃ xs, entry.data = Value.vList xs) ∧
    (∀ xs, normalizeExtracted (.vList xs) = .vList xs) ∧
    (∀ v, (∀ xs, v ≠ .vList xs) → truthy v = true →
      normalizeExtracted v = .vList [v]) ∧
    (∀ v, (∀ xs, v ≠ .vList xs) → truthy v = false →
      normalizeExtracted v = .vList []) := by
  refine ⟨cacheDataIsList_loadAll c sources ([], [])
      (fun n e h' => by simp [alGet] at h') name entry h,
    fun xs => rfl, ?_, ?_⟩
  · intro v hv ht
    cases v
    case vList xs => exact absurd rfl (hv xs)
    all_goals simp [normalizeExtracted, ht]
  · intro v hv ht
    cases v
    case vList xs => exact absurd rfl (hv xs)
    all_goals simp [normalizeExtracted, ht]

/-- C7 witness: the entry cached for `specsSource` holds a list (of one
record), and the normalization laws evaluated on closed values. -/
theorem c7_cached_data_is_sequence_witness :
    (∃ xs, (SourceEntry.mk
        (.vList [.vDict [(.vStr "model", .vStr "X1"), (.vStr "ram", .vStr "8GB")]])
        specsSource).data = Value.vList xs) ∧
    (∀ xs, normalizeExtracted (.vList xs) = .vList xs) ∧
    (∀ v, (∀ xs, v ≠ .vList xs) → truthy v = true →
      normalizeExtracted v = .vList [v]) ∧
    (∀ v, (∀ xs, v ≠ .vList xs) → truthy v = false →
      normalizeExtracted v = .vList []) :=
  c7_cached_data_is_sequence sampleOracles [specsSource] (.vStr "specs") _ (by decide)

/-- C1 counterexample: the claim's type tags are wrong for this code. A
descriptor of type `"github"` — a type outside the claim's set
{`remote`, `local`} — is fetched and cached, and a descriptor with the
claim's tag `"remote"` dispatches to no fetcher: it is skipped with an
unknown-type warning and gains no cache entry. -/
theorem c1_counterexample :
    alGetD githubTypedSource (.vStr "type") .vNull = .vStr "github" ∧
    Value.vStr "github" ≠ .vStr "remote" ∧
    Value.vStr "github" ≠ .vStr "local" ∧
    (alGet (loadAllSources sampleOracles [githubTypedSource] ([], [])).1
      (.vStr "g")).isSome = true ∧
    loadAllSources sampleOracles [remoteTypedSource] ([], [])
      = ([], [.warnUnknownType (.vStr "remote") (.vStr "r")]) := by
  decide

/-- C1 amended: dispatch is on the literal tags `"github"` and `"local"`.
For a descriptor (with a truthy name) whose present `type` is neither, no
fetcher runs: the cache gains no entry, a warning naming the unknown type
and the source is logged, and no exception propagates; conversely a
`"github"`-typed descriptor is fetched via the GitHub fetcher and a
`"local"`-typed one via the local fetcher. -/
theorem c1_unknown_type_skipped (c : Collab) (cache : Cache)
    (logs : List LogMsg) (source : PyDict) (source_name t : Value)
    (hname : source_name = alGetD source (.vStr "name") .vNull)
    (htruthy : truthy source_name = true)
    (ht : pyGetItem source (.vStr "type") = .ok t) :
    (t ≠ .vStr "github" → t ≠ .vStr "local" →
      loadOneSource c (cache, logs) source
        = (cache, logs ++ [.warnUnknownType t source_name])) ∧
    (t = .vStr "github" →
      tryLoadSource c cache source source_name
        = match c.load_github_source source with
          | .error e => .error e
          | .ok data => processFetched c cache source source_name data) ∧
    (t = .vStr "local" →
      tryLoadSource c cache source source_name
        = match c.load_local_source source with
          | .error e => .error e
          | .ok data => processFetched c cache source source_name data) := by
  refine ⟨?_, ?_, ?_⟩
  · intro hng hnl
    have htry : tryLoadSource c cache source source_name
        = .ok (cache, [.warnUnknownType t source_name]) := by
      unfold tryLoadSource
      rw [ht]
      simp [hng, hnl]
    simp [loadOneSource, ← hname, htruthy, htry]
  · intro hg
    subst hg
    unfold tryLoadSource
    rw [ht]
    simp
  · intro hl
    subst hl
    unfold tryLoadSource
    rw [ht]
    simp

/-- C1 amended witness: the tag `"remote"` is an unknown type for this
loader — skipped with a warning, no fetch, no cache entry. -/
theorem c1_unknown_type_skipped_witness :
    (Value.vStr "remote" ≠ .vStr "github" → Value.vStr "remote" ≠ .vStr "local" →
      loadOneSource sampleOracles ([], []) remoteTypedSource
        = ([], [.warnUnknownType (.vStr "remote") (.vStr "r")])) ∧
    (Value.vStr "remote" = .vStr "github" →
      tryLoadSource sampleOracles [] remoteTypedSource (.vStr "r")
        = match sampleOracles.load_github_source remoteTypedSource with
          | .error e => .error e
          | .ok data => processFetched sampleOracles [] remoteTypedSource (.vStr "r") data) ∧
    (Value.vStr "remote" = .vStr "local" →
      tryLoadSource sampleOracles [] remoteTypedSource (.vStr "r")
        = match sampleOracles.load_local_source remoteTypedSource with
          | .error e => .error e
          | .ok data => processFetched sampleOracles [] remoteTypedSource (.vStr "r") data) :=
  c1_unknown_type_skipped sampleOracles [] [] remoteTypedSource
    (.vStr "r") (.vStr "remote") (by decide) (by decide) rfl

/-- C5: lookup over a cached sequence is a linear scan in load order under
exact (structural, uncoerced) equality: it reports not-found when the
source name is absent from the cache or when no record matches the full
scan, and any returned record is the first matching one — in particular,
with duplicate records sharing the lookup value, the one earliest in load
order is returned. -/
theorem c5_lookup_first_match (cache : Cache)
    (source_name lookup_field lookup_value : Value) :
    (source_name ∉ alKeys cache →
      lookupInSource cache source_name lookup_field lookup_value = none) ∧
    (∀ entry items, alGet cache source_name = some entry →
      entry.data = Value.vList items →
      ((lookupInSource cache source_name lookup_field lookup_value = none) ↔
        ∀ item ∈ items, lookupMatches lookup_field lookup_value item = false) ∧
      (∀ m, lookupInSource cache source_name lookup_field lookup_value = some m →
        ∃ l1 l2, items = l1 ++ m :: l2 ∧
          lookupMatches lookup_field lookup_value m = true ∧
          ∀ x ∈ l1, lookupMatches lookup_field lookup_value x = false)) := by
  constructor
  · intro h
    rw [← alGet_eq_none_iff] at h
    simp [lookupInSource, h]
  · intro entry items he hd
    have hl : lookupInSource cache source_name lookup_field lookup_value
        = items.find? (lookupMatches lookup_field lookup_value) := by
      simp [lookupInSource, he, hd]
    constructor
    · rw [hl, List.find?_eq_none]
      simp only [Bool.not_eq_true]
    · intro m hm
      rw [hl] at hm
      exact find?_first _ _ _ hm

/-- C5 witness: an uncached name yields not-found, and with two records
sharing lookup value `"1"` the scan returns the first in load order. -/
theorem c5_lookup_first_match_witness :
    lookupInSource dupCache (.vStr "absent") (.vStr "m") (.vStr "1") = none ∧
    (∃ l1 l2, dupItems = l1
        ++ (.vDict [(.vStr "m", .vStr "1"), (.vStr "a", .vStr "x")]) :: l2 ∧
      lookupMatches (.vStr "m") (.vStr "1")
        (.vDict [(.vStr "m", .vStr "1"), (.vStr "a", .vStr "x")]) = true ∧
      ∀ x ∈ l1, lookupMatches (.vStr "m") (.vStr "1") x = false) :=
  ⟨(c5_lookup_first_match dupCache (.vStr "absent") (.vStr "m") (.vStr "1")).1
      (by decide),
   (((c5_lookup_first_match dupCache (.vStr "s") (.vStr "m") (.vStr "1")).2
      dupEntry dupItems (by decide) (by decide)).2) _ (by decide)⟩

/-- C3: for a source with a truthy `lookup_field`, the merge step feeds the
lookup exactly the match value the spec describes: the `match_from` field
read from the current accumulating record when `match_from` is set (so an
earlier source can supply a later one's key), else `lookup_field` read
from the original primary record; and a falsy resolved value skips the
source with no lookup attempted. -/
theorem c3_match_value_resolution (cache : Cache)
    (ota_data current_data : PyDict) (source_name : Value)
    (cached_source : SourceEntry)
    (hlf : truthy (alGetD cached_source.config (.vStr "lookup_field") .vNull)
      = true) :
    mergeSourcesStep cache ota_data current_data source_name cached_source
      = mergeApplyLookup cache current_data source_name
          (alGetD cached_source.config (.vStr "lookup_field") .vNull)
          (specResolveMatchValue ota_data current_data cached_source.config) ∧
    (truthy (specResolveMatchValue ota_data current_data cached_source.config)
        = false →
      mergeSourcesStep cache ota_data current_data source_name cached_source
        = current_data) := by
  have h1 := mergeSourcesStep_resolves cache ota_data current_data
    source_name cached_source hlf
  refine ⟨h1, fun hv => ?_⟩
  rw [h1]
  simp [mergeApplyLookup, hv]

/-- A source config that chains: its match key comes from field `A_y` of
the accumulating record. -/
def chainEntry : SourceEntry :=
  { data := .vList [],
    config := [(.vStr "lookup_field", .vStr "m"), (.vStr "match_from", .vStr "A_y")] }

/-- C3 witness: with `match_from = "A_y"`, the step resolves the match
value from the accumulating record (which holds `A_y`), not the primary. -/
theorem c3_match_value_resolution_witness :
    mergeSourcesStep [] [] [(.vStr "A_y", .vStr "1")] (.vStr "B") chainEntry
      = mergeApplyLookup [] [(.vStr "A_y", .vStr "1")] (.vStr "B")
          (alGetD chainEntry.config (.vStr "lookup_field") .vNull)
          (specResolveMatchValue [] [(.vStr "A_y", .vStr "1")]
            chainEntry.config) ∧
    (truthy (specResolveMatchValue [] [(.vStr "A_y", .vStr "1")]
        chainEntry.config) = false →
      mergeSourcesStep [] [] [(.vStr "A_y", .vStr "1")] (.vStr "B") chainEntry
        = [(.vStr "A_y", .vStr "1")]) :=
  c3_match_value_resolution [] [] [(.vStr "A_y", .vStr "1")] (.vStr "B")
    chainEntry (by decide)

/-- C4: when the lookup finds a (non-empty) match, the step overlays onto
the accumulating record every field of the matched record re-keyed as
`"<source_name>_<field>"`, overwriting existing same-named keys (the
prefixed key maps to the matched value regardless of the prior record);
and every key of the result is either a key the accumulating record
already had or such a prefixed key — no bare key of the matched record is
introduced. -/
theorem c4_prefixed_overlay (cache : Cache) (current_data : PyDict)
    (source_name lookup_field lookup_value : Value)
    (kvs : List (Value × Value))
    (hv : truthy lookup_value = true)
    (hm : lookupInSource cache source_name lookup_field lookup_value
      = some (.vDict kvs))
    (hne : kvs ≠ [])
    (hnd : (alKeys (prefixMatch source_name (.vDict kvs))).Nodup) :
    mergeApplyLookup cache current_data source_name lookup_field lookup_value
      = dictUpdate current_data (prefixMatch source_name (.vDict kvs)) ∧
    (∀ k v, (k, v) ∈ kvs →
      alGet (mergeApplyLookup cache current_data source_name lookup_field
          lookup_value)
        (.vStr (pyStr source_name ++ "_" ++ pyStr k)) = some v) ∧
    (∀ key, key ∈ alKeys (mergeApplyLookup cache current_data source_name
        lookup_field lookup_value) →
      key ∈ alKeys current_data ∨
      ∃ k0 v0, (k0, v0) ∈ kvs ∧
        key = .vStr (pyStr source_name ++ "_" ++ pyStr k0)) := by
  have htr : truthy (Value.vDict kvs) = true := by
    cases kvs with
    | nil => exact absurd rfl hne
    | cons a l => simp [truthy]
  have heq : mergeApplyLookup cache current_data source_name lookup_field
      lookup_value
      = dictUpdate current_data (prefixMatch source_name (.vDict kvs)) := by
    simp [mergeApplyLookup, hv, hm, htr]
  refine ⟨heq, ?_, ?_⟩
  · intro k v hkv
    rw [heq]
    refine alGet_dictUpdate_mem _ _ _ _ hnd ?_
    show (Value.vStr (pyStr source_name ++ "_" ++ pyStr k), v)
      ∈ kvs.map (fun kv =>
          (Value.vStr (pyStr source_name ++ "_" ++ pyStr kv.1), kv.2))
    exact List.mem_map.mpr ⟨(k, v), hkv, rfl⟩
  · intro key hkey
    rw [heq] at hkey
    rcases mem_alKeys_dictUpdate _ _ _ hkey with h | h
    · exact Or.inl h
    · exact Or.inr ((mem_alKeys_prefixMatch _ _ _).mp h)

/-- C4 witness: the `specs` source's matched record `{model: X1, ram: 8GB}`
is overlaid as `specs_model`/`specs_ram` onto the device record. -/
theorem c4_prefixed_overlay_witness :
    mergeApplyLookup specsCache
        [(.vStr "id", .vStr "d1"), (.vStr "model", .vStr "X1")]
        (.vStr "specs") (.vStr "model") (.vStr "X1")
      = dictUpdate [(.vStr "id", .vStr "d1"), (.vStr "model", .vStr "X1")]
          (prefixMatch (.vStr "specs")
            (.vDict [(.vStr "model", .vStr "X1"), (.vStr "ram", .vStr "8GB")])) ∧
    (∀ k v, (k, v) ∈ [((Value.vStr "model"), Value.vStr "X1"),
        ((Value.vStr "ram"), Value.vStr "8GB")] →
      alGet (mergeApplyLookup specsCache
          [(.vStr "id", .vStr "d1"), (.vStr "model", .vStr "X1")]
          (.vStr "specs") (.vStr "model") (.vStr "X1"))
        (.vStr (pyStr (.vStr "specs") ++ "_" ++ pyStr k)) = some v) ∧
    (∀ key, key ∈ alKeys (mergeApplyLookup specsCache
        [(.vStr "id", .vStr "d1"), (.vStr "model", .vStr "X1")]
        (.vStr "specs") (.vStr "model") (.vStr "X1")) →
      key ∈ alKeys [((Value.vStr "id"), Value.vStr "d1"),
        ((Value.vStr "model"), Value.vStr "X1")] ∨
      ∃ k0 v0, (k0, v0) ∈ [((Value.vStr "model"), Value.vStr "X1"),
        ((Value.vStr "ram"), Value.vStr "8GB")] ∧
        key = .vStr (pyStr (.vStr "specs") ++ "_" ++ pyStr k0)) :=
  c4_prefixed_overlay specsCache
    [(.vStr "id", .vStr "d1"), (.vStr "model", .vStr "X1")]
    (.vStr "specs") (.vStr "model") (.vStr "X1")
    [((Value.vStr "model"), Value.vStr "X1"),
     ((Value.vStr "ram"), Value.vStr "8GB")]
    (by decide) (by decide) (by decide) (by decide)

/-- C6: merging a primary record against a cache in which every source
skips — because its `lookup_field` is unset, its resolved match value is
falsy, or its lookup misses — returns the primary record unchanged,
field for field, with no spurious fields. -/
theorem c6_no_match_identity (cache : Cache) (ota_data : PyDict)
    (h : ∀ p ∈ cache, mergeStepSkips cache ota_data p) :
    mergeSourcesIntoDevice cache ota_data = ota_data := by
  unfold mergeSourcesIntoDevice dictCopy
  exact mergeLoop_skips cache ota_data cache h

/-- A cache with one source lacking `lookup_field` and one whose lookup
value is absent from the primary record used in the C6 witness. -/
def noMatchCache : Cache :=
  (.vStr "empty", { data := .vList [], config := [] }) :: specsCache

/-- C6 witness: a primary record with no matching source round-trips
unchanged. -/
theorem c6_no_match_identity_witness :
    mergeSourcesIntoDevice noMatchCache [(.vStr "id", .vStr "d1")]
      = [(.vStr "id", .vStr "d1")] :=
  c6_no_match_identity noMatchCache [(.vStr "id", .vStr "d1")] (by decide)

/-- C9: the query facade is read-only on the reader state: a call returns
the state it was given (the cache equals its pre-call state), and a second
call with identical inputs and the resulting state yields identical
output; likewise for the bulk query. -/
theorem c9_facade_read_only (r : DeviceInfoReaderState)
    (ota_data : Option PyDict) (ota_devices : List PyDict) :
    (getDeviceInfoST r ota_data).2 = r ∧
    (getDeviceInfoST ((getDeviceInfoST r ota_data).2) ota_data).1
      = (getDeviceInfoST r ota_data).1 ∧
    (getAllDevicesST r ota_devices).2 = r ∧
    (getAllDevicesST ((getAllDevicesST r ota_devices).2) ota_devices).1
      = (getAllDevicesST r ota_devices).1 :=
  ⟨rfl, rfl, rfl, rfl⟩

/-- C10: `get_device_info` returns `None` whenever the catalog reader's
result is falsy — both when it is `None` and when it is an empty mapping —
so an empty primary record is never merged or returned. -/
theorem c10_falsy_primary_absent (device_info_sources : List PyDict)
    (cache : Cache) :
    getDeviceInfo device_info_sources cache none = none ∧
    getDeviceInfo device_info_sources cache (some []) = none :=
  ⟨rfl, rfl⟩

end RomKit
